import Mathlib

set_option maxRecDepth 400000

/-!
Verification of the `dumb_dumb_scraper` pipeline (src/funcs.py and src/main.py):
a financial-news scraper that discovers article links on a front page, parses
article pages into records, tags them with extracted financial entities and
persists them into a date-partitioned archive keyed by an MD5-derived
identifier.  The Python sources are embedded shallowly below: pure helpers
become Lean functions, the filesystem becomes an explicit association list,
and library calls (`hashlib.md5`, `re`, `urllib.parse.urljoin`,
`datetime.fromisoformat`) are modelled by executable Lean definitions of the
behaviour the code relies on.
-/

namespace Scraper

/-! ## Python string primitives -/

/-- The whitespace characters recognised by Python's `str.strip()` and by the
ASCII fragment of the regex class `\s`. -/
def isPySpace (c : Char) : Bool :=
  c = ' ' || c = '\t' || c = '\n' || c = '\x0d' || c = '\x0b' || c = '\x0c'

/-- Word characters for the ASCII fragment of the regex class `\w`
(used by the `\b` word-boundary assertion). -/
def isWordChar (c : Char) : Bool :=
  c.isAlpha || c.isDigit || c = '_'

/-- Python `str.strip()` on a character list: drop whitespace from both ends. -/
def stripL (l : List Char) : List Char :=
  ((l.dropWhile isPySpace).reverse.dropWhile isPySpace).reverse

/-- Python `s.strip()`. -/
def pyStrip (s : String) : String := ⟨stripL s.data⟩

/-- Does `l` start with `n` (character-list version of `str.startswith`)? -/
def startsWithL : List Char → List Char → Bool
  | _, [] => true
  | [], _ :: _ => false
  | a :: as, b :: bs => a = b && startsWithL as bs

/-- Contiguous-substring test on character lists: Python's `needle in hay`. -/
def hasSubL : List Char → List Char → Bool
  | [], n => n.isEmpty
  | l@(_ :: t), n => startsWithL l n || hasSubL t n

/-- Python's substring containment `needle in hay` on strings. -/
def strContains (hay needle : String) : Bool := hasSubL hay.data needle.data

/-- Python `s.split(sep)[0]`: the part of `s` before the first occurrence of
`sep` (all of `s` when `sep` does not occur). -/
def beforeFirstL (l sep : List Char) : List Char :=
  match l with
  | [] => []
  | c :: t => if startsWithL (c :: t) sep then [] else c :: beforeFirstL t sep

/-- Python `s.split(sep)[0]` on strings. -/
def beforeFirst (s sep : String) : String := ⟨beforeFirstL s.data sep.data⟩

/-- Python `str.zfill(2)` applied to a decimal rendering of a `Nat`
(as in `str(date_obj.month).zfill(2)`). -/
def zfill2 (n : Nat) : String :=
  if n < 10 then "0" ++ toString n else toString n

/-- Four-digit zero padding of a year, as produced by `strftime("%Y...")`. -/
def pad4 (n : Nat) : String :=
  if n < 10 then "000" ++ toString n
  else if n < 100 then "00" ++ toString n
  else if n < 1000 then "0" ++ toString n
  else toString n

/-! ## UTF-8 encoding (`url.encode('utf-8')`) -/

/-- UTF-8 encoding of a single Unicode code point, as a list of byte values. -/
def utf8EncodeChar (c : Char) : List Nat :=
  let n := c.toNat
  if n < 0x80 then [n]
  else if n < 0x800 then [0xC0 + n / 64, 0x80 + n % 64]
  else if n < 0x10000 then [0xE0 + n / 4096, 0x80 + n / 64 % 64, 0x80 + n % 64]
  else [0xF0 + n / 262144, 0x80 + n / 4096 % 64, 0x80 + n / 64 % 64, 0x80 + n % 64]

/-- Python `s.encode('utf-8')` as a list of byte values. -/
def utf8Encode (s : String) : List Nat := s.data.flatMap utf8EncodeChar

/-! ## MD5 (`hashlib.md5`)

A direct executable model of the MD5 digest over a list of byte values,
following RFC 1321: pad, split into 64-byte chunks, run the 64-round
compression per chunk, output the four state words little-endian. -/

/-- MD5 per-round sine-derived constants. -/
def md5K : List Nat :=
  [0xd76aa478, 0xe8c7b756, 0x242070db, 0xc1bdceee,
   0xf57c0faf, 0x4787c62a, 0xa8304613, 0xfd469501,
   0x698098d8, 0x8b44f7af, 0xffff5bb1, 0x895cd7be,
   0x6b901122, 0xfd987193, 0xa679438e, 0x49b40821,
   0xf61e2562, 0xc040b340, 0x265e5a51, 0xe9b6c7aa,
   0xd62f105d, 0x02441453, 0xd8a1e681, 0xe7d3fbc8,
   0x21e1cde6, 0xc33707d6, 0xf4d50d87, 0x455a14ed,
   0xa9e3e905, 0xfcefa3f8, 0x676f02d9, 0x8d2a4c8a,
   0xfffa3942, 0x8771f681, 0x6d9d6122, 0xfde5380c,
   0xa4beea44, 0x4bdecfa9, 0xf6bb4b60, 0xbebfbc70,
   0x289b7ec6, 0xeaa127fa, 0xd4ef3085, 0x04881d05,
   0xd9d4d039, 0xe6db99e5, 0x1fa27cf8, 0xc4ac5665,
   0xf4292244, 0x432aff97, 0xab9423a7, 0xfc93a039,
   0x655b59c3, 0x8f0ccc92, 0xffeff47d, 0x85845dd1,
   0x6fa87e4f, 0xfe2ce6e0, 0xa3014314, 0x4e0811a1,
   0xf7537e82, 0xbd3af235, 0x2ad7d2bb, 0xeb86d391]

/-- MD5 per-round left-rotation amounts. -/
def md5S : List Nat :=
  [7, 12, 17, 22, 7, 12, 17, 22, 7, 12, 17, 22, 7, 12, 17, 22,
   5, 9, 14, 20, 5, 9, 14, 20, 5, 9, 14, 20, 5, 9, 14, 20,
   4, 11, 16, 23, 4, 11, 16, 23, 4, 11, 16, 23, 4, 11, 16, 23,
   6, 10, 15, 21, 6, 10, 15, 21, 6, 10, 15, 21, 6, 10, 15, 21]

/-- Addition modulo `2^32`. -/
def add32 (a b : Nat) : Nat := (a + b) % 4294967296

/-- Bitwise complement on 32 bits (inputs kept below `2^32`). -/
def not32 (x : Nat) : Nat := Nat.xor x 4294967295

/-- Left rotation of a 32-bit word by `n` bits. -/
def rotl32 (x n : Nat) : Nat :=
  (x * 2 ^ n) % 4294967296 + x / 2 ^ (32 - n)

/-- MD5 message padding: append `0x80`, zero-pad to 56 mod 64, then the
original bit length as eight little-endian bytes. -/
def md5Pad (msg : List Nat) : List Nat :=
  let bitLen := (msg.length * 8) % 2 ^ 64
  let zeros := (119 - msg.length % 64) % 64
  msg ++ [0x80] ++ List.replicate zeros 0 ++
    (List.range 8).map (fun i => bitLen / 2 ^ (8 * i) % 256)

/-- Split a list into chunks of 64, driven by explicit fuel so that the
definition reduces in the kernel. -/
def chunks64Aux : Nat → List Nat → List (List Nat)
  | 0, _ => []
  | _ + 1, [] => []
  | n + 1, l => l.take 64 :: chunks64Aux n (l.drop 64)

def chunks64 (l : List Nat) : List (List Nat) := chunks64Aux l.length l

/-- The sixteen little-endian 32-bit message words of one 64-byte chunk. -/
def md5Words16 (chunk : List Nat) : List Nat :=
  (List.range 16).map fun j =>
    chunk.getD (4 * j) 0 + chunk.getD (4 * j + 1) 0 * 256 +
      chunk.getD (4 * j + 2) 0 * 65536 + chunk.getD (4 * j + 3) 0 * 16777216

/-- One of the 64 MD5 rounds: `st = (A, B, C, D)`, `m` the 16 message words. -/
def md5Round (m : List Nat) (st : Nat × Nat × Nat × Nat) (i : Nat) :
    Nat × Nat × Nat × Nat :=
  let (a, b, c, d) := st
  let f :=
    if i < 16 then Nat.lor (Nat.land b c) (Nat.land (not32 b) d)
    else if i < 32 then Nat.lor (Nat.land d b) (Nat.land (not32 d) c)
    else if i < 48 then Nat.xor (Nat.xor b c) d
    else Nat.xor c (Nat.lor b (not32 d))
  let g :=
    if i < 16 then i
    else if i < 32 then (5 * i + 1) % 16
    else if i < 48 then (3 * i + 5) % 16
    else 7 * i % 16
  let v := add32 (add32 (add32 f a) (md5K.getD i 0)) (m.getD g 0)
  (d, add32 b (rotl32 v (md5S.getD i 0)), b, c)

/-- Process one 64-byte chunk against the running MD5 state. -/
def md5Chunk (st : Nat × Nat × Nat × Nat) (chunk : List Nat) :
    Nat × Nat × Nat × Nat :=
  let m := md5Words16 chunk
  let (a0, b0, c0, d0) := st
  let (a, b, c, d) := (List.range 64).foldl (md5Round m) st
  (add32 a0 a, add32 b0 b, add32 c0 c, add32 d0 d)

/-- The four MD5 state words of a byte message. -/
def md5StateOf (msg : List Nat) : Nat × Nat × Nat × Nat :=
  (chunks64 (md5Pad msg)).foldl md5Chunk
    (0x67452301, 0xefcdab89, 0x98badcfe, 0x10325476)

/-- A 32-bit word as four little-endian bytes. -/
def wordLEBytes (x : Nat) : List Nat :=
  [x % 256, x / 256 % 256, x / 65536 % 256, x / 16777216 % 256]

/-- The 16-byte MD5 digest of a byte message. -/
def md5Bytes (msg : List Nat) : List Nat :=
  let (a, b, c, d) := md5StateOf msg
  wordLEBytes a ++ wordLEBytes b ++ wordLEBytes c ++ wordLEBytes d

/-- Lowercase hexadecimal digit for a value below 16. -/
def hexDigit (n : Nat) : Char :=
  if n < 10 then Char.ofNat (48 + n) else Char.ofNat (87 + n)

/-- A byte as two lowercase hex characters. -/
def byteHex (b : Nat) : List Char := [hexDigit (b / 16), hexDigit (b % 16)]

/-- Model of `hashlib.md5(msg).hexdigest()`: the 32-character lowercase hex digest. -/
def md5HexDigest (msg : List Nat) : String :=
  ⟨(md5Bytes msg).flatMap byteHex⟩

/-- Python slice `s[-n:]`: the last `n` characters (all of `s` if shorter). -/
def pySliceLast (n : Nat) (s : String) : String :=
  ⟨s.data.drop (s.data.length - n)⟩

/-- Embedding of `funcs.get_md5_hash`:
`hashlib.md5(url.encode('utf-8')).hexdigest()[-8:]`. -/
def get_md5_hash (url : String) : String :=
  pySliceLast 8 (md5HexDigest (utf8Encode url))

/-! ## Regex scanners

Executable models of the `re` patterns used by the source, with Python's
leftmost, non-overlapping `finditer`/`findall` semantics (greedy quantifiers
with backtracking where the pattern requires it). -/

/-- Attempt the percentage pattern `([+-]?\s*\d{1,3}(?:\.\d+)?)\s*%` at the
head of `l`.  On success returns the text captured by group 1 together with
the input remaining after the whole match. -/
def tryPercentAt (l : List Char) : Option (List Char × List Char) :=
  -- `[+-]?` (greedy; if the overall match fails with the sign consumed it
  -- also fails without, since the sign character is neither `\s` nor `\d`)
  let (sign, l1) :=
    match l with
    | c :: t => if c = '+' || c = '-' then ([c], t) else ([], l)
    | [] => ([], [])
  -- `\s*` before the digits (greedy, no backtracking needed: a shorter run
  -- would leave a whitespace character where a digit is required)
  let ws := l1.takeWhile isPySpace
  let l2 := l1.dropWhile isPySpace
  let ds := l2.takeWhile Char.isDigit
  -- `\d{1,3}` with backtracking: try 3, then 2, then 1 digits
  let rec tryK : Nat → Option (List Char × List Char)
    | 0 => none
    | k + 1 =>
      if k + 1 ≤ min 3 ds.length then
        let after := l2.drop (k + 1)
        -- `(?:\.\d+)?` (greedy; if present it must be taken, since `.` can
        -- match neither `\s` nor `%`)
        let (frac, after2) :=
          match after with
          | '.' :: r =>
            if (r.takeWhile Char.isDigit).isEmpty then (([] : List Char), after)
            else ('.' :: r.takeWhile Char.isDigit, r.dropWhile Char.isDigit)
          | _ => ([], after)
        -- `\s*%`
        match after2.dropWhile isPySpace with
        | '%' :: rest => some (sign ++ ws ++ ds.take (k + 1) ++ frac, rest)
        | _ => tryK k
      else tryK k
  tryK 3

/-- All group-1 captures of the percentage pattern over `l`, scanning left to
right and resuming after each match (fuel-driven for kernel reduction). -/
def percentRawAux : Nat → List Char → List (List Char)
  | 0, _ => []
  | _ + 1, [] => []
  | n + 1, l@(_ :: t) =>
    match tryPercentAt l with
    | some (g, rest) => g :: percentRawAux n rest
    | none => percentRawAux n t

/-- The raw (unstripped) group-1 captures of the percentage pattern:
`[m.group(1) for m in percent_pattern.finditer(content)]`. -/
def percentRaw (content : String) : List String :=
  (percentRawAux content.data.length content.data).map fun g => ⟨g⟩

/-- Attempt the dollar pattern `\$[,\d]{1,16}\.\d{2}\b` at the head of `l`.
On success returns the whole match and the remaining input. -/
def tryDollarAt (l : List Char) : Option (List Char × List Char) :=
  match l with
  | '$' :: t =>
    let isBody : Char → Bool := fun c => c.isDigit || c = ','
    let run := (t.takeWhile isBody).length
    -- `[,\d]{1,16}` with backtracking from the longest feasible run
    let rec tryK : Nat → Option (List Char × List Char)
      | 0 => none
      | k + 1 =>
        if k + 1 ≤ min 16 run then
          match t.drop (k + 1) with
          | '.' :: d1 :: d2 :: rest =>
            if d1.isDigit && d2.isDigit &&
                -- `\b` after the second decimal digit
                (match rest with
                 | [] => true
                 | c :: _ => !isWordChar c) then
              some ('$' :: t.take (k + 1) ++ ['.', d1, d2], rest)
            else tryK k
          | _ => tryK k
        else tryK k
    tryK 16
  | _ => none

/-- All matches of the dollar pattern over `l` (fuel-driven). -/
def dollarAux : Nat → List Char → List (List Char)
  | 0, _ => []
  | _ + 1, [] => []
  | n + 1, l@(_ :: t) =>
    match tryDollarAt l with
    | some (g, rest) => g :: dollarAux n rest
    | none => dollarAux n t

/-- Model of `dollar_pattern.findall(content)` for `\$[,\d]{1,16}\.\d{2}\b`. -/
def dollarMatches (content : String) : List String :=
  (dollarAux content.data.length content.data).map fun g => ⟨g⟩

/-- The closed acronym vocabulary, in the pattern's alternation order:
`GDP|CPI|Fed|IPO|M&A|CEO|CFO|EPS|EBITDA|S&P` (plus `Q\d`, handled apart). -/
def acronymAlts : List (List Char) :=
  [['G','D','P'], ['C','P','I'], ['F','e','d'], ['I','P','O'],
   ['M','&','A'], ['C','E','O'], ['C','F','O'], ['E','P','S'],
   ['E','B','I','T','D','A'], ['S','&','P']]

/-- Whether `\b` holds after the match: the next character is absent or non-word. -/
def boundaryAfter : List Char → Bool
  | [] => true
  | c :: _ => !isWordChar c

/-- Try the alternatives of the acronym pattern at the head of `l`, in the
pattern's order; `Q\d` comes last.  Returns the match and the rest. -/
def tryAcronymAlts (l : List Char) : Option (List Char × List Char) :=
  let fixed := acronymAlts.findSome? fun alt =>
    if startsWithL l alt && boundaryAfter (l.drop alt.length) then
      some (alt, l.drop alt.length)
    else none
  match fixed with
  | some r => some r
  | none =>
    match l with
    | 'Q' :: d :: rest =>
      if d.isDigit && boundaryAfter rest then some (['Q', d], rest) else none
    | _ => none

/-- Scan for `\b(GDP|CPI|Fed|IPO|M&A|CEO|CFO|EPS|EBITDA|S&P|Q\d)\b`:
`prev` is the character before the current position (none at the start), so
the leading `\b` holds exactly when `prev` is absent or non-word (every
alternative starts with a word character). -/
def acronymAux : Nat → Option Char → List Char → List (List Char)
  | 0, _, _ => []
  | _ + 1, _, [] => []
  | n + 1, prev, l@(c :: t) =>
    let boundaryBefore := match prev with
      | none => true
      | some p => !isWordChar p
    if boundaryBefore then
      match tryAcronymAlts l with
      | some (g, rest) => g :: acronymAux n (some (g.getLastD c)) rest
      | none => acronymAux n (some c) t
    else acronymAux n (some c) t

/-- Model of `acronym_pattern.findall(content)`: the group-1 captures, which coincide
with the whole matches. -/
def acronymMatches (content : String) : List String :=
  (acronymAux content.data.length none content.data).map fun g => ⟨g⟩

/-- Attempt the ticker pattern `\b[A-Z]{1,5}(?:\.[A-Z]{1,2})?\b` at the head
of `l` (the leading `\b` is checked by the caller). -/
def tryTickerAt (l : List Char) : Option (List Char × List Char) :=
  let isUpper : Char → Bool := fun c => 'A' ≤ c && c ≤ 'Z'
  let run := (l.takeWhile isUpper).length
  -- `[A-Z]{1,5}` with backtracking from the longest feasible run
  let rec tryK : Nat → Option (List Char × List Char)
    | 0 => none
    | k + 1 =>
      if k + 1 ≤ min 5 run then
        let body := l.take (k + 1)
        let after := l.drop (k + 1)
        -- `(?:\.[A-Z]{1,2})?`: try two suffix letters, then one, then none
        let withSuf :=
          match after with
          | '.' :: s1 :: s2 :: rest =>
            if isUpper s1 && isUpper s2 && boundaryAfter rest then
              some (body ++ ['.', s1, s2], rest)
            else if isUpper s1 && boundaryAfter (s2 :: rest) then
              some (body ++ ['.', s1], s2 :: rest)
            else none
          | '.' :: s1 :: rest =>
            if isUpper s1 && boundaryAfter rest then
              some (body ++ ['.', s1], rest)
            else none
          | _ => none
        match withSuf with
        | some r => some r
        | none =>
          if boundaryAfter after then some (body, after) else tryK k
      else tryK k
  tryK 5

/-- Scan for all ticker-pattern matches, tracking the previous character for
the leading `\b` (the first character of any match is a word character). -/
def tickerAux : Nat → Option Char → List Char → List (List Char)
  | 0, _, _ => []
  | _ + 1, _, [] => []
  | n + 1, prev, l@(c :: t) =>
    let boundaryBefore := match prev with
      | none => true
      | some p => !isWordChar p
    if boundaryBefore then
      match tryTickerAt l with
      | some (g, rest) => g :: tickerAux n (some (g.getLastD c)) rest
      | none => tickerAux n (some c) t
    else tickerAux n (some c) t

/-- Model of `ticker_pattern.findall(raw_text)`. -/
def tickerMatches (rawText : String) : List String :=
  (tickerAux rawText.data.length none rawText.data).map fun g => ⟨g⟩

/-! ## `filter_tickers` and `extract_financial_metrics` -/

/-- Ascending insertion keeping duplicates out is not needed here: Python's
`sorted(list(set(...)))` dedups first, then sorts; we model it as
deduplication (first occurrences) followed by insertion sort. -/
def insertSorted (x : String) : List String → List String
  | [] => [x]
  | y :: t => if x ≤ y then x :: y :: t else y :: insertSorted x t

/-- Python `sorted(list(set(l)))` for strings. -/
def sortedSet (l : List String) : List String :=
  l.eraseDups.foldr insertSorted []

/-- Embedding of `funcs.filter_tickers`. -/
def filter_tickers (rawText : String) : List String :=
  sortedSet (tickerMatches rawText)

/-- The result record of `funcs.extract_financial_metrics`. -/
structure FinancialMetrics where
  percentages : List String
  dollar_values : List String
  acronyms : List String
  deriving Repr, DecidableEq

/-- Embedding of `funcs.extract_financial_metrics`: the percentage captures are
`.strip()`ped; dollar and acronym matches are taken verbatim. -/
def extract_financial_metrics (content : String) : FinancialMetrics :=
  { percentages := (percentRaw content).map pyStrip
    dollar_values := dollarMatches content
    acronyms := acronymMatches content }

/-! ## Module constants of `funcs.py` -/

def BASE_URL : String := "https://finance.yahoo.com/"

def SOURCE_SHORT : String := "yahoo"

def SOURCE_FULL : String := "finance.yahoo.com"

/-! ## URL resolution (`urllib.parse.urljoin`)

A model of `urljoin` for the http(s) URLs this scraper handles: an absolute
`http(s)` reference wins outright, a protocol-relative reference takes the
base scheme, a root-relative reference takes the base origin, an empty
reference yields the base, and any other reference is resolved against the
base path's directory. -/

/-- The scheme of an absolute URL, i.e. the part before `://`. -/
def urlScheme (url : String) : String := beforeFirst url "://"

/-- The part of an absolute URL after `scheme://`. -/
def urlAfterScheme (url : String) : String :=
  ⟨url.data.drop ((urlScheme url).data.length + 3)⟩

/-- The host of an absolute URL: between `://` and the next `/`. -/
def urlHost (url : String) : String := beforeFirst (urlAfterScheme url) "/"

/-- The origin of an absolute URL: `scheme://host`. -/
def urlOrigin (url : String) : String :=
  urlScheme url ++ "://" ++ urlHost url

/-- The base URL up to and including the last `/` of its path (used for
resolving relative references). -/
def urlDir (url : String) : String :=
  let origin := urlOrigin url
  let path := url.data.drop origin.data.length
  if path.contains '/' then
    ⟨origin.data ++ (path.reverse.dropWhile (· ≠ '/')).reverse⟩
  else origin ++ "/"

/-- Modelled behaviour of `urllib.parse.urljoin(base, href)` on the cases the
scraper exercises. -/
def urljoin (base href : String) : String :=
  if startsWithL href.data "http://".data || startsWithL href.data "https://".data then
    href
  else if startsWithL href.data "//".data then urlScheme base ++ ":" ++ href
  else if startsWithL href.data "/".data then urlOrigin base ++ href
  else if href = "" then base
  else urlDir base ++ href

/-! ## Link discovery (`funcs.scrape_article_links`)

The pure extraction logic that runs once `page.content()` has produced a
document.  The document is abstracted to exactly the features the code
queries: the `href` attributes of the anchors inside the
`section.module-hero` region (if that section exists), and for each
`li.stream-item` of the `div[data-testid=news-stream]` region (if it exists)
the `href` of the item's first anchor, if the item has one. -/

structure FrontPageDoc where
  /-- The `href`s of `a[href]` anchors inside `section.module-hero`;
  `none` when the hero section is absent. -/
  heroHrefs : Option (List String)
  /-- For each `li.stream-item` inside `div[data-testid=news-stream]`, the
  `href` of its first `a[href]` (or `none` for an item without a link);
  `none` when the news-stream region is absent. -/
  streamItems : Option (List (Option String))
  deriving Repr

/-- Python's `set.add`: membership-preserving insert. -/
def setInsert (s : List String) (x : String) : List String :=
  if x ∈ s then s else s ++ [x]

/-- One hero-section anchor: resolve, keep only `/news/` URLs, strip the
query string, add to the set.  No blacklist test is applied here. -/
def heroStep (base : String) (acc : List String) (href : String) : List String :=
  let absoluteUrl := urljoin base href
  if strContains absoluteUrl "/news/" then
    setInsert acc (beforeFirst absoluteUrl "?")
  else acc

/-- The URLs accumulated from the hero section. -/
def heroLinks (base : String) (doc : FrontPageDoc) : List String :=
  match doc.heroHrefs with
  | none => []
  | some hrefs => hrefs.foldl (heroStep base) []

/-- One news-stream item: resolve its link, drop it when the absolute URL
contains `"noisefreefinance.com"` (the blacklist check), keep `/news/` or
`/m/` URLs, strip the query string. -/
def streamContribution (base : String) : Option String → Option String
  | none => none
  | some href =>
    if strContains (urljoin base href) "noisefreefinance.com" then none
    else if strContains (urljoin base href) "/news/" ||
        strContains (urljoin base href) "/m/" then
      some (beforeFirst (urljoin base href) "?")
    else none

/-- Embedding of `funcs.scrape_article_links` after the page content is in hand: hero
links first, then the news-stream items into the same set. -/
def scrape_article_links (base : String) (doc : FrontPageDoc) : List String :=
  let heroSet := heroLinks base doc
  match doc.streamItems with
  | none => heroSet
  | some items =>
    items.foldl
      (fun acc item =>
        match streamContribution base item with
        | some u => setInsert acc u
        | none => acc)
      heroSet

/-! ## Article parsing (`funcs.scrape_article_page`)

The document is abstracted to the text values the BeautifulSoup queries
return; the Python string operations applied afterwards are embedded
explicitly. -/

/-- The `div.byline-attr-author` container, as the code queries it. -/
structure AuthorNode where
  /-- Result of `get_text(strip=True)` on the first `<a>` inside the
  container, when such an anchor exists. -/
  linkText : Option String
  /-- The first direct (non-recursive) string child, when one exists. -/
  directText : Option String
  /-- Result of `get_text(strip=True)` on the whole container. -/
  fullText : String
  deriving Repr

/-- The author extraction of `funcs.scrape_article_page` given the byline
container: prefer the embedded link's text; else the first direct text node,
stripped, when it is non-empty (Python truthiness); else the container's full
text truncated at `'<span'` and stripped. -/
def authorOf (c : AuthorNode) : String :=
  match c.linkText with
  | some t => t
  | none =>
    match c.directText with
    | some s =>
      if s ≠ "" then pyStrip s
      else pyStrip (beforeFirst c.fullText "<span")
    | none => pyStrip (beforeFirst c.fullText "<span")

/-- An article page as `funcs.scrape_article_page` queries it. -/
structure ArticleDoc where
  /-- Result of `get_text(strip=True)` on `h1.cover-title`, when present. -/
  coverTitle : Option String
  /-- The `div.byline-attr-author` container, when present. -/
  bylineAuthor : Option AuthorNode
  /-- The `datetime` attribute of
  `div.byline-attr-time-style time.byline-attr-meta-time`, when the element
  and attribute are present. -/
  timeDatetime : Option String
  /-- The raw text content of each `<p>` element inside
  `div[data-testid=article-body]` (the embedding applies the strip of
  `get_text(strip=True)`); `none` when that container is absent. -/
  bodyParagraphs : Option (List String)
  /-- Result of `get_text(separator=' ', strip=True)` on
  `div.scroll-carousel`, when present. -/
  tickerBox : Option String
  deriving Repr

/-- An article record, mirroring the dict built by
`funcs.scrape_article_page` (its JSON serialization stands for the record
itself in the filesystem model). -/
structure Article where
  title : String
  url : String
  date : String
  author : String
  source : String
  content_snippet : String
  full_content : String
  tags : List String
  deriving Repr, DecidableEq

/-- The joined article body: each paragraph's text stripped, empties
dropped, the rest joined with newline. -/
def fullContentOf (doc : ArticleDoc) : String :=
  String.intercalate "\n"
    (((doc.bodyParagraphs.getD []).map pyStrip).filter (· ≠ ""))

/-- Embedding of `funcs.scrape_article_page` after the page content is in hand; `nowIso`
is `datetime.now().isoformat()` at parse time (the published-date fallback). -/
def scrape_article_page (doc : ArticleDoc) (url nowIso : String) :
    Option Article :=
  let title := doc.coverTitle.getD "Not Found"
  let author :=
    match doc.bylineAuthor with
    | some c => authorOf c
    | none => "Not Found"
  let publishedDate := doc.timeDatetime.getD nowIso
  let fullContent := fullContentOf doc
  if fullContent = "" then none
  else
    let snippet :=
      if fullContent.length > 200 then ⟨fullContent.data.take 200⟩ ++ "..."
      else fullContent
    let tickerTags :=
      match doc.tickerBox with
      | some rawText => filter_tickers rawText
      | none => []
    let metrics := extract_financial_metrics fullContent
    let tags := sortedSet
      (tickerTags ++ metrics.percentages.map (fun p => "PCT:" ++ p) ++
        metrics.dollar_values.map (fun d => "USD:" ++ d) ++
        metrics.acronyms.map (fun a => "ACR:" ++ a))
    some
      { title := title, url := url, date := publishedDate, author := author
        source := SOURCE_FULL, content_snippet := snippet
        full_content := fullContent, tags := tags }

/-! ## The simpler pipeline variant (`main.scrape_article_page`) -/

/-- An article page as `main.scrape_article_page` queries it. -/
structure MainArticleDoc where
  /-- Result of `get_text(strip=True)` on `h1.cover-title`, when present. -/
  coverTitle : Option String
  /-- The `div.byline-attr-author` container, when present. -/
  bylineAuthor : Option AuthorNode
  /-- The `datetime` attribute of the byline time element, when present. -/
  timeDatetime : Option String
  deriving Repr

/-- The author extraction of `main.scrape_article_page`: as in `funcs`, but
the container's full text is used only when non-empty (the author otherwise
stays at the sentinel). -/
def mainAuthorOf (c : AuthorNode) : String :=
  let fullBranch :=
    if c.fullText ≠ "" then pyStrip (beforeFirst c.fullText "<span")
    else "Not Found"
  match c.linkText with
  | some t => t
  | none =>
    match c.directText with
    | some s => if s ≠ "" then pyStrip s else fullBranch
    | none => fullBranch

/-- The title computed by `main.scrape_article_page`. -/
def mainTitleOf (doc : MainArticleDoc) : String :=
  doc.coverTitle.getD "Not Found"

/-- The author computed by `main.scrape_article_page`. -/
def mainAuthorField (doc : MainArticleDoc) : String :=
  match doc.bylineAuthor with
  | some c => mainAuthorOf c
  | none => "Not Found"

/-- The record built by `main.scrape_article_page`. -/
structure MainRecord where
  title : String
  author : String
  published_time_utc : String
  article_link : String
  deriving Repr, DecidableEq

/-- Embedding of `main.scrape_article_page` after the page content is in hand: pages on
which both title and author are the sentinel are skipped. -/
def main_scrape_article_page (doc : MainArticleDoc) (url : String) :
    Option MainRecord :=
  let title := mainTitleOf doc
  let author := mainAuthorField doc
  let updatedTime := doc.timeDatetime.getD "Not Found"
  if title = "Not Found" ∧ author = "Not Found" then none
  else
    some
      { title := title, author := author, published_time_utc := updatedTime
        article_link := url }

/-! ## ISO-8601 parsing (`datetime.fromisoformat`)

A model of the forms the scraper relies on: `YYYY-MM-DD`, optionally
followed by a one-character separator and a time `HH[:MM[:SS[.f₁..₆]]]`
with an optional colon-separated UTC offset `±HH[:MM[:SS]]`.  Field ranges
are enforced as `datetime` does (month 1–12, day valid for the month and
leap year, hour < 24, minute/second < 60, year ≥ 1). -/

/-- Value of a decimal digit character. -/
def digitVal (c : Char) : Nat := c.toNat - 48

/-- Parse exactly two decimal digits. -/
def parse2 : List Char → Option (Nat × List Char)
  | a :: b :: r =>
    if a.isDigit && b.isDigit then some (digitVal a * 10 + digitVal b, r)
    else none
  | _ => none

/-- Gregorian leap-year test. -/
def isLeap (y : Nat) : Bool := (y % 4 = 0 && y % 100 ≠ 0) || y % 400 = 0

/-- Days in a month of a given year. -/
def daysInMonth (y m : Nat) : Nat :=
  if m = 2 then (if isLeap y then 29 else 28)
  else if m = 4 || m = 6 || m = 9 || m = 11 then 30
  else 31

/-- Validate a colon-separated UTC offset `±HH[:MM[:SS]]` (or nothing). -/
def offsetOK : List Char → Bool
  | [] => true
  | c :: r =>
    (c = '+' || c = '-') &&
    match parse2 r with
    | none => false
    | some (hh, r2) =>
      hh < 24 &&
      match r2 with
      | [] => true
      | ':' :: r3 =>
        match parse2 r3 with
        | none => false
        | some (mm, r4) =>
          mm < 60 &&
          match r4 with
          | [] => true
          | ':' :: r5 =>
            match parse2 r5 with
            | none => false
            | some (ss, r6) => ss < 60 && r6.isEmpty
          | _ => false
      | _ => false

/-- Validate one to six fractional-second digits followed by an optional
offset. -/
def fracThenOffset (r : List Char) : Bool :=
  let ds := r.takeWhile Char.isDigit
  decide (1 ≤ ds.length) && decide (ds.length ≤ 6) &&
    offsetOK (r.drop ds.length)

/-- Validate the time part `HH[:MM[:SS[.f]]]` plus optional offset. -/
def timePartOK (l : List Char) : Bool :=
  match parse2 l with
  | none => false
  | some (h, r) =>
    h < 24 &&
    match r with
    | ':' :: r2 =>
      (match parse2 r2 with
       | none => false
       | some (m, r3) =>
         m < 60 &&
         match r3 with
         | ':' :: r4 =>
           (match parse2 r4 with
            | none => false
            | some (s, r5) =>
              s < 60 &&
              match r5 with
              | '.' :: r6 => fracThenOffset r6
              | ',' :: r6 => fracThenOffset r6
              | _ => offsetOK r5)
         | _ => offsetOK r3)
    | _ => offsetOK r

/-- Modelled `datetime.fromisoformat`, returning the `(year, month, day)`
the writer partitions by, or `none` when parsing raises `ValueError`. -/
def parseIsoDate (s : String) : Option (Nat × Nat × Nat) :=
  match s.data with
  | y1 :: y2 :: y3 :: y4 :: '-' :: m1 :: m2 :: '-' :: d1 :: d2 :: rest =>
    if [y1, y2, y3, y4, m1, m2, d1, d2].all Char.isDigit then
      let y := ((digitVal y1 * 10 + digitVal y2) * 10 + digitVal y3) * 10 +
        digitVal y4
      let m := digitVal m1 * 10 + digitVal m2
      let d := digitVal d1 * 10 + digitVal d2
      if 1 ≤ y ∧ 1 ≤ m ∧ m ≤ 12 ∧ 1 ≤ d ∧ d ≤ daysInMonth y m then
        match rest with
        | [] => some (y, m, d)
        | _sep :: timeChars =>
          if timePartOK timeChars then some (y, m, d) else none
      else none
    else none
  | _ => none

/-- Python `s.replace('Z', '+00:00')`: every occurrence replaced. -/
def pyReplaceZ (s : String) : String :=
  ⟨s.data.flatMap fun c => if c = 'Z' then "+00:00".data else [c]⟩

/-! ## Archive writing (`funcs.save_article`)

The filesystem is an explicit association list from paths to file
contents (directories are implicit, so `os.makedirs` is a no-op).  `now`
is the wall-clock `(year, month, day)` used when the published date fails
to parse.  The guarded block `open` / `json.dump` / `print` can raise at
any of its three stages — all caught by the surrounding `except`, which
returns `False` — and the stage matters for what is left on disk:
`open(file_path, 'w')` creates (or truncates) the file, so a `json.dump`
failure leaves a partial file at the path, and a failure of the `print`
after a completed dump leaves the full record while still returning
`False`.  The `attempt` oracle selects the stage at which the block
raises, if any. -/

/-- What a file at an archive path holds. -/
inductive FileContent where
  /-- The complete JSON serialization of an article record. -/
  | record (a : Article)
  /-- Truncated bytes left behind by a `json.dump` that raised mid-write
  (the `open` had already created the file). -/
  | partialData
  deriving Repr, DecidableEq

/-- The stage, if any, at which the guarded write block raises. -/
inductive WriteAttempt where
  /-- The `open`, the `json.dump` and the `print` all complete. -/
  | success
  /-- The `open` call raises: no file is created. -/
  | openFail
  /-- The `open` succeeded (file created) but `json.dump` raises
  mid-write. -/
  | dumpFail
  /-- The write completed but the following `print` raises. -/
  | printFail
  deriving Repr, DecidableEq

def FileSystem : Type := List (String × FileContent)

/-- Lookup of a path in the modelled filesystem (`os.path.exists` plus the
stored content). -/
def fsLookup (fs : FileSystem) (p : String) : Option FileContent :=
  match fs with
  | [] => none
  | (q, c) :: t => if q = p then some c else fsLookup t p

/-- Join of two path components (`os.path.join` for the separator-free
components used here). -/
def pathJoin (a b : String) : String := a ++ "/" ++ b

/-- The target path computed by `funcs.save_article`:
`root/data/yahoo/<year>/<month>/yahoo-<YYYYMMDD>-<hash>.json`, with the date
taken from the parsed `article.date` or from the wall clock on parse
failure. -/
def savePath (article : Article) (rootDir : String) (now : Nat × Nat × Nat) :
    String :=
  let (y, m, d) :=
    match parseIsoDate (pyReplaceZ article.date) with
    | some ymd => ymd
    | none => now
  let year := toString y
  let month := zfill2 m
  let dayStr := pad4 y ++ zfill2 m ++ zfill2 d
  let urlHash := get_md5_hash article.url
  let filename := SOURCE_SHORT ++ "-" ++ dayStr ++ "-" ++ urlHash ++ ".json"
  let saveDir :=
    pathJoin (pathJoin (pathJoin (pathJoin rootDir "data") SOURCE_SHORT) year)
      month
  pathJoin saveDir filename

/-- Embedding of `funcs.save_article`: duplicate check first
(`os.path.exists` → return `False` without writing), then the guarded
write block.  On `success` the record is stored and `True` returned; every
failing stage is caught by the `except` and returns `False`, leaving on
disk whatever the stage reached: nothing for a failed `open`, a partial
file for a `json.dump` that raised after the `open` created the file, and
the complete record for a `print` that raised after the dump finished. -/
def save_article (article : Article) (rootDir : String)
    (now : Nat × Nat × Nat) (attempt : WriteAttempt) (fs : FileSystem) :
    Bool × FileSystem :=
  if (fsLookup fs (savePath article rootDir now)).isSome then (false, fs)
  else
    match attempt with
    | .success =>
      (true, (savePath article rootDir now, FileContent.record article) :: fs)
    | .openFail => (false, fs)
    | .dumpFail =>
      (false, (savePath article rootDir now, FileContent.partialData) :: fs)
    | .printFail =>
      (false, (savePath article rootDir now, FileContent.record article) :: fs)

/-- The blacklist of syndication-spam hosts: the code checks exactly one
domain string. -/
def blacklistedHosts : List String := ["noisefreefinance.com"]

/-- A concrete article record used to instantiate the write theorems. -/
def sampleArticle : Article :=
  { title := "Sample", url := "u", date := "2024-03-05T12:34:56Z"
    author := "A", source := SOURCE_FULL, content_snippet := "s"
    full_content := "s", tags := [] }

/-! ## Helper lemmas -/

lemma startsWithL_append (l r n : List Char) (h : startsWithL l n = true) :
    startsWithL (l ++ r) n = true := by
  induction n generalizing l with
  | nil => cases l ++ r <;> simp [startsWithL]
  | cons b bs ih =>
    cases l with
    | nil => simp [startsWithL] at h
    | cons a as =>
      simp only [startsWithL, Bool.and_eq_true, decide_eq_true_eq] at h
      simp only [List.cons_append, startsWithL, Bool.and_eq_true,
        decide_eq_true_eq]
      exact ⟨h.1, ih as h.2⟩

lemma hasSubL_nil_needle (l : List Char) : hasSubL l [] = true := by
  cases l <;> simp [hasSubL, startsWithL, List.isEmpty]

lemma hasSubL_append (l r n : List Char) (h : hasSubL l n = true) :
    hasSubL (l ++ r) n = true := by
  induction l with
  | nil =>
    simp only [hasSubL, List.isEmpty_iff] at h
    subst h
    exact hasSubL_nil_needle r
  | cons a t ih =>
    simp only [hasSubL, Bool.or_eq_true] at h
    simp only [List.cons_append, hasSubL, Bool.or_eq_true]
    rcases h with hs | ht
    · exact Or.inl (startsWithL_append _ _ _ hs)
    · exact Or.inr (ih ht)

lemma beforeFirstL_prefix (l sep : List Char) :
    ∃ r, l = beforeFirstL l sep ++ r := by
  induction l with
  | nil => exact ⟨[], rfl⟩
  | cons c t ih =>
    cases hs : startsWithL (c :: t) sep with
    | true => exact ⟨c :: t, by simp [beforeFirstL, hs]⟩
    | false =>
      obtain ⟨r, hr⟩ := ih
      refine ⟨r, ?_⟩
      simp only [beforeFirstL, hs, Bool.false_eq_true, if_false,
        List.cons_append]
      exact congrArg (c :: ·) hr

lemma strContains_of_beforeFirst (s sep n : String)
    (h : strContains (beforeFirst s sep) n = true) :
    strContains s n = true := by
  unfold strContains beforeFirst at *
  obtain ⟨r, hr⟩ := beforeFirstL_prefix s.data sep.data
  rw [hr]
  exact hasSubL_append _ _ _ h

lemma streamContribution_no_blacklist (base : String) (item : Option String)
    (u : String) (h : streamContribution base item = some u) :
    strContains u "noisefreefinance.com" = false := by
  rcases item with _ | href
  · simp [streamContribution] at h
  · simp only [streamContribution] at h
    cases hb : strContains (urljoin base href) "noisefreefinance.com" with
    | true => rw [hb] at h; simp at h
    | false =>
      rw [hb] at h
      by_cases hm : (strContains (urljoin base href) "/news/" ||
          strContains (urljoin base href) "/m/") = true
      · rw [hm] at h
        simp only [if_true, Bool.false_eq_true, if_false,
          Option.some.injEq] at h
        subst h
        cases hu : strContains (beforeFirst (urljoin base href) "?")
            "noisefreefinance.com" with
        | false => rfl
        | true =>
          have h2 := strContains_of_beforeFirst _ _ _ hu
          rw [hb] at h2
          cases h2
      · rw [Bool.not_eq_true] at hm
        rw [hm] at h
        simp at h

lemma mem_setInsert_elim (s : List String) (x y : String)
    (h : x ∈ setInsert s y) : x ∈ s ∨ x = y := by
  unfold setInsert at h
  by_cases hy : y ∈ s
  · rw [if_pos hy] at h; exact Or.inl h
  · rw [if_neg hy] at h
    rcases List.mem_append.mp h with h1 | h2
    · exact Or.inl h1
    · exact Or.inr (List.mem_singleton.mp h2)

lemma mem_streamFoldl (base : String) (items : List (Option String))
    (init : List String) (x : String)
    (h : x ∈ items.foldl
      (fun acc item =>
        match streamContribution base item with
        | some u => setInsert acc u
        | none => acc)
      init) :
    x ∈ init ∨ ∃ item ∈ items, streamContribution base item = some x := by
  induction items generalizing init with
  | nil => exact Or.inl h
  | cons it ts ih =>
    rw [List.foldl_cons] at h
    rcases hc : streamContribution base it with _ | u
    · rw [hc] at h
      rcases ih _ h with h1 | ⟨item, hm, he⟩
      · exact Or.inl h1
      · exact Or.inr ⟨item, List.mem_cons_of_mem _ hm, he⟩
    · rw [hc] at h
      rcases ih _ h with h1 | ⟨item, hm, he⟩
      · rcases mem_setInsert_elim _ _ _ h1 with h2 | rfl
        · exact Or.inl h2
        · exact Or.inr ⟨it, List.mem_cons_self _ _, hc⟩
      · exact Or.inr ⟨item, List.mem_cons_of_mem _ hm, he⟩

lemma md5HexDigest_data_length (msg : List Nat) :
    (md5HexDigest msg).data.length = 32 := by
  rcases hst : md5StateOf msg with ⟨a, b, c, d⟩
  simp [md5HexDigest, md5Bytes, hst, wordLEBytes, byteHex]

lemma head?_dropWhile (p : Char → Bool) (l : List Char) (a : Char)
    (h : (l.dropWhile p).head? = some a) : p a = false := by
  induction l with
  | nil => cases h
  | cons x t ih =>
    rw [List.dropWhile_cons] at h
    by_cases hx : p x = true
    · rw [if_pos hx] at h; exact ih h
    · rw [if_neg hx] at h
      obtain rfl : x = a := Option.some.inj h
      exact Bool.not_eq_true _ ▸ hx

lemma dropWhile_eq_self_of_head (p : Char → Bool) (l : List Char)
    (h : ∀ a, l.head? = some a → p a = false) : l.dropWhile p = l := by
  cases l with
  | nil => rfl
  | cons x t =>
    rw [List.dropWhile_cons, h x rfl]
    simp

lemma getLast?_dropWhile (p : Char → Bool) (l : List Char)
    (h : l.dropWhile p ≠ []) : (l.dropWhile p).getLast? = l.getLast? := by
  induction l with
  | nil => cases h rfl
  | cons x t ih =>
    rw [List.dropWhile_cons]
    by_cases hx : p x = true
    · rw [List.dropWhile_cons, if_pos hx] at h
      rw [if_pos hx]
      cases t with
      | nil => cases h rfl
      | cons y t' => rw [ih h, List.getLast?_cons_cons]
    · rw [if_neg hx]

lemma stripL_eq_self (l : List Char)
    (h1 : ∀ a, l.head? = some a → isPySpace a = false)
    (h2 : ∀ a, l.getLast? = some a → isPySpace a = false) :
    stripL l = l := by
  unfold stripL
  rw [dropWhile_eq_self_of_head _ _ h1]
  rw [dropWhile_eq_self_of_head _ _
    (fun a ha => h2 a ((List.head?_reverse l) ▸ ha))]
  exact List.reverse_reverse l

lemma stripL_idem (l : List Char) : stripL (stripL l) = stripL l := by
  apply stripL_eq_self
  · intro a ha
    unfold stripL at ha
    rw [List.head?_reverse] at ha
    rcases hne : (l.dropWhile isPySpace).reverse.dropWhile isPySpace with
      _ | ⟨x, t⟩
    · rw [hne] at ha; simp at ha
    · have hne' : (l.dropWhile isPySpace).reverse.dropWhile isPySpace ≠ [] :=
        by rw [hne]; simp
      rw [getLast?_dropWhile _ _ hne'] at ha
      rw [List.getLast?_reverse] at ha
      exact head?_dropWhile _ _ _ ha
  · intro a ha
    unfold stripL at ha
    rw [List.getLast?_reverse] at ha
    exact head?_dropWhile _ _ _ ha

lemma pyStrip_idem (s : String) : pyStrip (pyStrip s) = pyStrip s :=
  congrArg String.mk (stripL_idem s.data)

lemma filter_strip_empty (l : List String) (h : ∀ p ∈ l, pyStrip p = "") :
    (l.map pyStrip).filter (· ≠ "") = [] := by
  induction l with
  | nil => rfl
  | cons a t ih =>
    have ha := h a (List.mem_cons_self _ _)
    have ht := ih fun p hp => h p (List.mem_cons_of_mem _ hp)
    simp only [List.map_cons, List.filter_cons, ha]
    rw [if_neg (by simp)]
    exact ht

/-! ## Claim theorems -/

/-- C1 (counterexample): the 8-hex-character archive identifier is NOT the
first 8 hexadecimal characters of the MD5 digest of the URL.  At the URL
`https://finance.yahoo.com/news/example` the digest is
`ee0ccdf0be1a23d2a0eea7c628ad1172`: the identifier is `28ad1172` (the last
8), not `ee0ccdf0` (the first 8). -/
theorem identifier_first8_counterexample :
    get_md5_hash "https://finance.yahoo.com/news/example" = "28ad1172" ∧
    (⟨(md5HexDigest
        (utf8Encode "https://finance.yahoo.com/news/example")).data.take 8⟩ :
      String) = "ee0ccdf0" ∧
    get_md5_hash "https://finance.yahoo.com/news/example" ≠
      ⟨(md5HexDigest
        (utf8Encode "https://finance.yahoo.com/news/example")).data.take 8⟩ :=
  ⟨by decide, by decide, by decide⟩

/-- C1 (amended): for every URL `u`, the 8-hex-character archive identifier
used in the filename equals the LAST 8 hexadecimal characters of the MD5
digest of `u` encoded as UTF-8 bytes (characters 24..31 of the 32-character
hex digest). -/
theorem get_md5_hash_eq_last8 (u : String) :
    get_md5_hash u = ⟨(md5HexDigest (utf8Encode u)).data.drop 24⟩ := by
  unfold get_md5_hash pySliceLast
  rw [md5HexDigest_data_length]

/-- C2: `write` is idempotent.  Against a fresh archive (no file at the
derived path) the first call returns saved (`True`) and stores the article
at that path; every subsequent call with the same article — whatever the
write oracle says — returns duplicate (`False`) and leaves the filesystem,
hence the stored content, unchanged. -/
theorem save_article_idempotent (a : Article) (root : String)
    (now : Nat × Nat × Nat) (fs : FileSystem)
    (fresh : fsLookup fs (savePath a root now) = none) :
    (save_article a root now .success fs).1 = true ∧
    fsLookup (save_article a root now .success fs).2 (savePath a root now) =
      some (FileContent.record a) ∧
    ∀ attempt2, save_article a root now attempt2
        (save_article a root now .success fs).2 =
      (false, (save_article a root now .success fs).2) := by
  unfold save_article
  rw [fresh]
  simp [fsLookup]

/-- C2 (witness): the idempotence theorem instantiated at a concrete
article, root and empty archive. -/
theorem save_article_idempotent_witness :
    (save_article sampleArticle "archive" (2025, 1, 1) .success []).1 =
      true ∧
    save_article sampleArticle "archive" (2025, 1, 1) .success
        (save_article sampleArticle "archive" (2025, 1, 1) .success []).2 =
      (false,
        (save_article sampleArticle "archive" (2025, 1, 1) .success []).2) :=
  ⟨(save_article_idempotent sampleArticle "archive" (2025, 1, 1) [] rfl).1,
   (save_article_idempotent sampleArticle "archive" (2025, 1, 1) []
     rfl).2.2 .success⟩

/-- C3 (counterexample): the returned set CAN contain a URL whose host is
blacklisted — the hero branch applies no blacklist check.  A front page
whose hero section links to `https://noisefreefinance.com/news/spam` yields
that URL in the result, and its host is the blacklisted domain. -/
theorem blacklist_hero_counterexample :
    "noisefreefinance.com" ∈ blacklistedHosts ∧
    "https://noisefreefinance.com/news/spam" ∈
      scrape_article_links BASE_URL
        ⟨some ["https://noisefreefinance.com/news/spam"], none⟩ ∧
    urlHost "https://noisefreefinance.com/news/spam" =
      "noisefreefinance.com" :=
  ⟨by decide, by decide, by decide⟩

/-- C3 (amended): only the news-stream branch filters by the blacklist:
every URL in the returned set either came from the hero section (where no
blacklist test is applied) or does not contain the blacklisted domain
string. -/
theorem links_blacklist_stream_only (base : String) (doc : FrontPageDoc)
    (u : String) (h : u ∈ scrape_article_links base doc) :
    u ∈ heroLinks base doc ∨
      strContains u "noisefreefinance.com" = false := by
  unfold scrape_article_links at h
  rcases hs : doc.streamItems with _ | items
  · rw [hs] at h; exact Or.inl h
  · rw [hs] at h
    rcases mem_streamFoldl base items _ u h with h1 | ⟨item, _, he⟩
    · exact Or.inl h1
    · exact Or.inr (streamContribution_no_blacklist _ _ _ he)

/-- C3 (amended, witness): the dichotomy applied to a front page with one
hero link and one stream link. -/
theorem links_blacklist_stream_only_witness :
    ("https://finance.yahoo.com/news/a" ∈
      heroLinks BASE_URL ⟨some ["/news/a"], some [some "/m/b"]⟩ ∨
    strContains "https://finance.yahoo.com/news/a" "noisefreefinance.com" =
      false) :=
  links_blacklist_stream_only BASE_URL
    ⟨some ["/news/a"], some [some "/m/b"]⟩
    "https://finance.yahoo.com/news/a" (by decide)

/-- C4: when every paragraph of the article-body container strips to the
empty string (no paragraphs at all, or only whitespace-only ones), `parse`
returns invalid (`None`); and a record with empty `full_content` is never
produced. -/
theorem empty_body_invalid (doc : ArticleDoc) (url nowIso : String) :
    ((∀ p ∈ doc.bodyParagraphs.getD [], pyStrip p = "") →
      scrape_article_page doc url nowIso = none) ∧
    (∀ rec, scrape_article_page doc url nowIso = some rec →
      rec.full_content ≠ "") := by
  constructor
  · intro h
    have hfc : fullContentOf doc = "" := by
      unfold fullContentOf
      rw [filter_strip_empty _ h]
      rfl
    unfold scrape_article_page
    rw [hfc]
    simp
  · intro rec h
    unfold scrape_article_page at h
    by_cases hfc : fullContentOf doc = ""
    · rw [hfc] at h; simp at h
    · rw [if_neg hfc] at h
      simp only [Option.some.injEq] at h
      subst h
      exact hfc

/-- C4 (witness): a document whose two body paragraphs are whitespace-only
parses to `None`. -/
theorem empty_body_invalid_witness :
    scrape_article_page
      { coverTitle := some "T", bylineAuthor := none
        timeDatetime := some "2024-03-05T12:34:56Z"
        bodyParagraphs := some ["   ", "\t \x0d\n"], tickerBox := none }
      "https://finance.yahoo.com/news/example" "2025-01-01T00:00:00" =
      none :=
  (empty_body_invalid _ _ _).1 (by decide)

/-- C5 (counterexample): `write` does NOT distinguish three outcomes.  Its
result is a boolean: a caught I/O failure while persisting — at whichever
stage the guarded block raises — returns `false`, the very same value the
duplicate outcome returns, so writeError is not distinct from duplicate. -/
theorem write_outcomes_counterexample :
    (save_article sampleArticle "archive" (2025, 1, 1) .openFail []).1 =
      false ∧
    (save_article sampleArticle "archive" (2025, 1, 1) .dumpFail []).1 =
      false ∧
    (save_article sampleArticle "archive" (2025, 1, 1) .printFail []).1 =
      false ∧
    (save_article sampleArticle "archive" (2025, 1, 1) .success
        [(savePath sampleArticle "archive" (2025, 1, 1),
          FileContent.record sampleArticle)]).1 = false ∧
    (save_article sampleArticle "archive" (2025, 1, 1) .openFail []).1 =
      (save_article sampleArticle "archive" (2025, 1, 1) .success
        [(savePath sampleArticle "archive" (2025, 1, 1),
          FileContent.record sampleArticle)]).1 :=
  ⟨by decide, by decide, by decide, by decide, by decide⟩

/-- C5 (amended): `write` returns a boolean.  Every caught I/O failure
while persisting returns `false` — the same value as the duplicate
outcome, so writeError is not distinct from duplicate — and what is left
on disk depends on the failing stage: a failed `open` leaves the
filesystem unchanged, a `json.dump` failure leaves a partial file at the
path, and a `print` failure after a completed dump leaves the full record
while still returning `false`.  A duplicate returns `false` with the
filesystem unchanged whatever the oracle, and only a successful fresh
write returns `true`. -/
theorem save_article_boolean_outcomes (a : Article) (root : String)
    (now : Nat × Nat × Nat) (fs : FileSystem) :
    (fsLookup fs (savePath a root now) = none →
      ∀ attempt, attempt ≠ WriteAttempt.success →
        (save_article a root now attempt fs).1 = false) ∧
    (∀ c, fsLookup fs (savePath a root now) = some c →
      ∀ attempt, save_article a root now attempt fs = (false, fs)) ∧
    (fsLookup fs (savePath a root now) = none →
      save_article a root now .openFail fs = (false, fs)) ∧
    (fsLookup fs (savePath a root now) = none →
      save_article a root now .dumpFail fs =
        (false, (savePath a root now, FileContent.partialData) :: fs)) ∧
    (fsLookup fs (savePath a root now) = none →
      save_article a root now .printFail fs =
        (false, (savePath a root now, FileContent.record a) :: fs)) ∧
    (fsLookup fs (savePath a root now) = none →
      (save_article a root now .success fs).1 = true) := by
  refine ⟨fun hn attempt hne => ?_, fun c hc attempt => ?_, fun hn => ?_,
    fun hn => ?_, fun hn => ?_, fun hn => ?_⟩
  · cases attempt with
    | success => exact absurd rfl hne
    | openFail => unfold save_article; rw [hn]; simp
    | dumpFail => unfold save_article; rw [hn]; simp
    | printFail => unfold save_article; rw [hn]; simp
  · unfold save_article; rw [hc]; simp
  · unfold save_article; rw [hn]; simp
  · unfold save_article; rw [hn]; simp
  · unfold save_article; rw [hn]; simp
  · unfold save_article; rw [hn]; simp

/-- C5 (amended, witness): the outcome equations at a concrete article and
archive — failed open, failed dump (partial file left), failed print (full
record left), and successful save. -/
theorem save_article_boolean_outcomes_witness :
    save_article sampleArticle "archive" (2025, 1, 1) .openFail [] =
      (false, []) ∧
    save_article sampleArticle "archive" (2025, 1, 1) .dumpFail [] =
      (false, [(savePath sampleArticle "archive" (2025, 1, 1),
        FileContent.partialData)]) ∧
    save_article sampleArticle "archive" (2025, 1, 1) .printFail [] =
      (false, [(savePath sampleArticle "archive" (2025, 1, 1),
        FileContent.record sampleArticle)]) ∧
    (save_article sampleArticle "archive" (2025, 1, 1) .success []).1 =
      true :=
  ⟨(save_article_boolean_outcomes sampleArticle "archive" (2025, 1, 1)
      []).2.2.1 rfl,
   (save_article_boolean_outcomes sampleArticle "archive" (2025, 1, 1)
      []).2.2.2.1 rfl,
   (save_article_boolean_outcomes sampleArticle "archive" (2025, 1, 1)
      []).2.2.2.2.1 rfl,
   (save_article_boolean_outcomes sampleArticle "archive" (2025, 1, 1)
      []).2.2.2.2.2 rfl⟩

/-- C6: when the article's `date` field parses under the (Z-tolerant) ISO
8601 model, the target archive path is independent of the wall clock: any
two invocations of `write` with that article compute the identical path. -/
theorem savePath_deterministic (a : Article) (root : String)
    (h : (parseIsoDate (pyReplaceZ a.date)).isSome = true) :
    ∀ now1 now2, savePath a root now1 = savePath a root now2 := by
  intro now1 now2
  obtain ⟨ymd, hy⟩ := Option.isSome_iff_exists.mp h
  unfold savePath
  rw [hy]

/-- C6 (witness): the sample article's date `2024-03-05T12:34:56Z` parses,
and its path is the same under two different wall-clock dates. -/
theorem savePath_deterministic_witness :
    (parseIsoDate (pyReplaceZ sampleArticle.date)).isSome = true ∧
    savePath sampleArticle "archive" (2025, 1, 1) =
      savePath sampleArticle "archive" (1999, 12, 31) :=
  ⟨by decide,
   savePath_deterministic sampleArticle "archive" (by decide)
     (2025, 1, 1) (1999, 12, 31)⟩

/-- C7 (counterexample): a returned percentage value is NOT the matched
substring verbatim: on `"up 3.5%"` the pattern's group captures `" 3.5"`
(leading whitespace matched by `\s*`), but the extractor returns the
stripped `"3.5"`. -/
theorem percent_strip_counterexample :
    percentRaw "up 3.5%" = [" 3.5"] ∧
    (extract_financial_metrics "up 3.5%").percentages = ["3.5"] ∧
    ("3.5" : String) ≠ " 3.5" :=
  ⟨by decide, by decide, by decide⟩

/-- C7 (amended): each percentage value is the matched group-1 substring
with leading and trailing whitespace stripped (`.strip()`), so every
returned value is whitespace-free at both ends. -/
theorem percent_values_stripped (content : String) :
    (extract_financial_metrics content).percentages =
      (percentRaw content).map pyStrip ∧
    ∀ v ∈ (extract_financial_metrics content).percentages,
      pyStrip v = v := by
  refine ⟨rfl, ?_⟩
  intro v hv
  simp only [extract_financial_metrics] at hv
  rcases List.mem_map.mp hv with ⟨raw, _, rfl⟩
  exact pyStrip_idem raw

/-- C7 (amended, witness): strippedness applied to the value returned on
`"up 3.5%"`. -/
theorem percent_values_stripped_witness : pyStrip "3.5" = "3.5" :=
  (percent_values_stripped "up 3.5%").2 "3.5" (by decide)

/-- C8: on `"Stocks rose 3.5% while EPS hit $1,234.56."` the extractor
returns `"3.5"` among the percentages, `"$1,234.56"` among the dollar
values and `"EPS"` among the acronyms. -/
theorem extract_example_sentence :
    "3.5" ∈ (extract_financial_metrics
      "Stocks rose 3.5% while EPS hit $1,234.56.").percentages ∧
    "$1,234.56" ∈ (extract_financial_metrics
      "Stocks rose 3.5% while EPS hit $1,234.56.").dollar_values ∧
    "EPS" ∈ (extract_financial_metrics
      "Stocks rose 3.5% while EPS hit $1,234.56.").acronyms :=
  ⟨by decide, by decide, by decide⟩

/-- C9: the news-stream blacklist test is substring containment over the
whole resolved URL: any stream link whose absolute URL contains
`"noisefreefinance.com"` anywhere contributes nothing, host-based or not. -/
theorem stream_blacklist_substring (base href : String)
    (h : strContains (urljoin base href) "noisefreefinance.com" = true) :
    streamContribution base (some href) = none := by
  simp only [streamContribution]
  rw [h]
  simp

/-- C9 (witness): the stream link `/m/noisefreefinance.com-feed` resolves
to a URL on host `finance.yahoo.com` — not a blacklisted host — yet it is
excluded because the blacklisted string occurs in its path. -/
theorem stream_blacklist_substring_witness :
    strContains (urljoin BASE_URL "/m/noisefreefinance.com-feed")
      "noisefreefinance.com" = true ∧
    urlHost (urljoin BASE_URL "/m/noisefreefinance.com-feed") =
      "finance.yahoo.com" ∧
    decide ("finance.yahoo.com" ∈ blacklistedHosts) = false ∧
    streamContribution BASE_URL (some "/m/noisefreefinance.com-feed") =
      none :=
  ⟨by decide, by decide, by decide,
   stream_blacklist_substring BASE_URL "/m/noisefreefinance.com-feed"
     (by decide)⟩

/-- C10: in the simpler pipeline variant, any page whose extracted title
and extracted author are both the sentinel `"Not Found"` parses to `None`,
regardless of the timestamp field. -/
theorem main_skip_sentinel_pages (doc : MainArticleDoc) (url : String)
    (ht : mainTitleOf doc = "Not Found")
    (ha : mainAuthorField doc = "Not Found") :
    main_scrape_article_page doc url = none := by
  unfold main_scrape_article_page
  rw [ht, ha]
  simp

/-- C10 (witness): a page with neither title heading nor byline container
but with a valid machine-readable timestamp is skipped. -/
theorem main_skip_sentinel_pages_witness :
    main_scrape_article_page
      ⟨none, none, some "2024-03-05T12:34:56Z"⟩
      "https://finance.yahoo.com/news/example" = none :=
  main_skip_sentinel_pages _ _ rfl rfl

end Scraper
